import Mathlib

/-!
Shallow embedding of the interactive diagram engine of the nokia-bkg
frontend.  The embedded code lives in `src/components/main.jsx` (the main
application) and `src/components/frontend_template/kg_frontend_template.jsx`
(the template variant); definitions below carry the source function names,
with a `Tmpl` namespace for the template file.

Modelling conventions:
* JS numbers are exact rationals `ℚ` (the floating-point grid is a subset of
  ℚ, and every claim is about algebraic identities or comparisons);
* JS objects used as maps (`positions`, `nodes`) are association lists with
  first-match lookup;
* `undefined`/`null` is `Option.none`;
* `Math.sqrt` is modelled by `Rat.sqrt` (exact on perfect squares; every
  theorem below only evaluates it at `0`);
* a JS arithmetic result that is not a finite number (NaN, or a division by
  zero) is modelled in the `JsQ := Option ℚ` domain as `none`; all divisions
  reached by the theorems below have a zero numerator over a zero
  denominator, which is NaN in JS.
-/

/-- JS `Array.prototype.isPrefix`-style helper: Boolean infix test on
character lists, used to model `String.prototype.includes`. -/
def listInfixOf : List Char → List Char → Bool
  | sub, [] => sub.isEmpty
  | sub, c :: rest => sub.isPrefixOf (c :: rest) || listInfixOf sub rest

/-- JS `hay.includes(sub)`. -/
def strIncludes (hay sub : String) : Bool :=
  listInfixOf sub.toList hay.toList

/-- JS array indexing `l[i]` with a possibly negative or out-of-range index:
`undefined` (`none`) outside the range. -/
def jsIndex {α : Type} (l : List α) (i : ℤ) : Option α :=
  if i < 0 then none else l.get? i.toNat

/-- JS `Array.prototype.indexOf`: first index of `x`, or `-1`. -/
def jsIndexOf (l : List String) (x : String) : ℤ :=
  match l.indexOf? x with
  | some n => (n : ℤ)
  | none => -1

/-- A world/screen point `{x, y}` (positions and mouse coordinates). -/
structure Pos where
  x : ℚ
  y : ℚ
  deriving DecidableEq

/-- The viewport transform state `{x, y, scale}` of the diagram. -/
structure Transform where
  x : ℚ
  y : ℚ
  scale : ℚ
  deriving DecidableEq

/-- A graph node; only the fields the embedded core reads. -/
structure Node where
  id : String
  nodeType : String
  module : String
  color : String
  definition : Option String
  deriving DecidableEq

/-- A relationship (edge); `fromId`/`toId` stand for the source's
`from`/`to` fields (`from` is a Lean keyword). -/
structure Relationship where
  id : String
  fromId : String
  toId : String
  label : String
  type : String
  deriving DecidableEq

/-- One `dataFlow` entry of a journey. -/
structure FlowStep where
  step : ℤ
  fromId : String
  toId : String
  action : String
  deriving DecidableEq

/-- A scenario journey (`SCENARIO_JOURNEYS` entries / the journeys API). -/
structure Journey where
  id : String
  name : String
  color : String
  category : String
  path : List String
  dataFlow : List FlowStep
  questions : List String
  deriving DecidableEq

/-- A toast notification `{message, type}`. -/
structure ToastMsg where
  message : String
  type : String
  deriving DecidableEq

/-- The `nodeDragStart` record of main.jsx's position editing. -/
structure DragStart where
  mouseX : ℚ
  mouseY : ℚ
  nodeX : ℚ
  nodeY : ℚ
  deriving DecidableEq

/-- First-match lookup in an association list: JS `positions[key]`. -/
def lookupPos : List (String × Pos) → String → Option Pos
  | [], _ => none
  | e :: rest, k => if e.1 = k then some e.2 else lookupPos rest k

/-- JS `{...prev, [key]: v}` on a map with unique keys: replace the first
binding of `key`, or append one. -/
def setPos : List (String × Pos) → String → Pos → List (String × Pos)
  | [], k, v => [(k, v)]
  | e :: rest, k, v => if e.1 = k then (k, v) :: rest else e :: setPos rest k v

/-- JS `nodes[key]` on the id-keyed node map built by `loadData`. -/
def lookupNode : List Node → String → Option Node
  | [], _ => none
  | n :: rest, k => if n.id = k then some n else lookupNode rest k

theorem lookupPos_setPos_self (ps : List (String × Pos)) (k : String) (v : Pos) :
    lookupPos (setPos ps k v) k = some v := by
  induction ps with
  | nil => simp [setPos, lookupPos]
  | cons e rest ih =>
    by_cases h : e.1 = k
    · simp [setPos, lookupPos, h]
    · simp [setPos, lookupPos, h, ih]

theorem lookupPos_setPos_other (ps : List (String × Pos)) (k k' : String) (v : Pos)
    (h : k' ≠ k) : lookupPos (setPos ps k v) k' = lookupPos ps k' := by
  induction ps with
  | nil => simp [setPos, lookupPos, Ne.symm h]
  | cons e rest ih =>
    by_cases he : e.1 = k
    · simp [setPos, lookupPos, he, Ne.symm h]
    · simp [setPos, lookupPos, he, ih]

/-! ## Viewport transform (main.jsx and the template)

`worldToScreen` is the mapping applied by the SVG group
`translate(x, y) scale(scale)` (spec §4.1: `worldToScreen(p) =
(p.x*scale + x, p.y*scale + y)`); `screenToWorld` is its inverse. -/

def worldToScreen (t : Transform) (p : Pos) : Pos :=
  ⟨p.x * t.scale + t.x, p.y * t.scale + t.y⟩

def screenToWorld (t : Transform) (p : Pos) : Pos :=
  ⟨(p.x - t.x) / t.scale, (p.y - t.y) / t.scale⟩

/-- main.jsx `handleWheel` (lines 922–927): picks `delta` from the wheel
direction, clamps the new scale to `[0.15, 2]` and stores it, leaving
`x`/`y` unchanged. -/
def handleWheel (deltaY : ℚ) (t : Transform) : Transform :=
  let delta : ℚ := if deltaY > 0 then 0.9 else 1.1
  let newScale := max 0.15 (min 2 (t.scale * delta))
  { t with scale := newScale }

/-- main.jsx zoom-in button (line 1566): `scale := min 2 (scale * 1.2)`. -/
def zoomInBtn (t : Transform) : Transform :=
  { t with scale := min 2 (t.scale * 1.2) }

/-- main.jsx zoom-out button (line 1568): `scale := max 0.15 (scale / 1.2)`. -/
def zoomOutBtn (t : Transform) : Transform :=
  { t with scale := max 0.15 (t.scale / 1.2) }

namespace Tmpl

/-- kg_frontend_template.jsx `handleWheel` (lines 733–754).  With
ctrl/meta held it zooms towards the mouse point (svg-relative coordinates
`mouseX`/`mouseY`), clamping the scale to `[0.2, 2]` and re-solving `x`/`y`
through `newScale / scale`; otherwise it pans by the wheel deltas. -/
def handleWheel (ctrlKey : Bool) (deltaX deltaY mouseX mouseY : ℚ)
    (t : Transform) : Transform :=
  if ctrlKey then
    let delta : ℚ := if deltaY > 0 then 0.9 else 1.1
    let newScale := max 0.2 (min 2 (t.scale * delta))
    let rr := newScale / t.scale
    { x := mouseX - (mouseX - t.x) * rr
      y := mouseY - (mouseY - t.y) * rr
      scale := newScale }
  else
    { t with x := t.x - deltaX, y := t.y - deltaY }

end Tmpl

/-- C1 counterexample input: the main.jsx wheel zoom at transform
`{x:0, y:0, scale:1}` and screen point `(100, 100)` moves the world point
that was under the cursor (it ends up at `(110, 110)`). -/
theorem zoom_anchor_main_cex :
    worldToScreen (handleWheel (-1) ⟨0, 0, 1⟩)
        (screenToWorld ⟨0, 0, 1⟩ ⟨100, 100⟩) ≠ ⟨100, 100⟩ := by
  norm_num [handleWheel, worldToScreen, screenToWorld, Pos.mk.injEq]

/-- C1 (amended): zoom-anchor invariance holds for the template's
ctrl/meta wheel zoom: for every transform with positive scale and every
mouse point, the world point under the mouse before the zoom maps back to
the same screen point afterwards (exactly, in ℚ). -/
theorem zoom_anchor_template (t : Transform) (mx my dX dY : ℚ)
    (h : 0 < t.scale) :
    worldToScreen (Tmpl.handleWheel true dX dY mx my t)
      (screenToWorld t ⟨mx, my⟩) = ⟨mx, my⟩ := by
  have hs : t.scale ≠ 0 := ne_of_gt h
  simp only [Tmpl.handleWheel, worldToScreen, screenToWorld, if_true,
    Pos.mk.injEq]
  constructor <;> (field_simp; try ring)

/-- C1 witness: the template zoom-anchor theorem applied at a concrete
transform and mouse point. -/
theorem zoom_anchor_template_witness :
    0 < (⟨3, 4, 1⟩ : Transform).scale ∧
      worldToScreen (Tmpl.handleWheel true 0 (-2) 100 60 ⟨3, 4, 1⟩)
        (screenToWorld ⟨3, 4, 1⟩ ⟨100, 60⟩) = ⟨100, 60⟩ := by
  refine ⟨by norm_num, zoom_anchor_template ⟨3, 4, 1⟩ 100 60 0 (-2) (by norm_num)⟩

/-! ## C5: scale clamping under repeated zoom operations -/

/-- The zoom operations of main.jsx: wheel zoom and the `+`/`-` buttons. -/
inductive ZoomOp where
  | wheel (deltaY : ℚ)
  | plusBtn
  | minusBtn
  deriving DecidableEq

def applyZoom : ZoomOp → Transform → Transform
  | .wheel d, t => handleWheel d t
  | .plusBtn, t => zoomInBtn t
  | .minusBtn, t => zoomOutBtn t

def applyZooms (ops : List ZoomOp) (t : Transform) : Transform :=
  ops.foldl (fun t op => applyZoom op t) t

theorem applyZoom_scale_mem (op : ZoomOp) (t : Transform)
    (h1 : (0.15 : ℚ) ≤ t.scale) (h2 : t.scale ≤ 2) :
    (0.15 : ℚ) ≤ (applyZoom op t).scale ∧ (applyZoom op t).scale ≤ 2 := by
  cases op with
  | wheel d =>
    constructor
    · exact le_max_left _ _
    · exact max_le (by norm_num) (min_le_left _ _)
  | plusBtn =>
    constructor
    · refine le_min (by norm_num) ?_
      nlinarith
    · exact min_le_left _ _
  | minusBtn =>
    constructor
    · exact le_max_left _ _
    · refine max_le (by norm_num) ?_
      rw [div_le_iff₀ (by norm_num : (0:ℚ) < 1.2)]
      nlinarith

/-- C5: starting from a scale in `[0.15, 2]`, any sequence of wheel zooms
and `+`/`-` button presses keeps the scale inside `[0.15, 2]`. -/
theorem scale_clamping (ops : List ZoomOp) (t : Transform)
    (h1 : (0.15 : ℚ) ≤ t.scale) (h2 : t.scale ≤ 2) :
    (0.15 : ℚ) ≤ (applyZooms ops t).scale ∧ (applyZooms ops t).scale ≤ 2 := by
  induction ops generalizing t with
  | nil => exact ⟨h1, h2⟩
  | cons op rest ih =>
    have h := applyZoom_scale_mem op t h1 h2
    simpa [applyZooms] using ih (applyZoom op t) h.1 h.2

/-- C5 witness: the clamping theorem at a concrete transform and a concrete
operation sequence. -/
theorem scale_clamping_witness :
    ((0.15 : ℚ) ≤ (⟨50, 50, 0.45⟩ : Transform).scale ∧
        (⟨50, 50, 0.45⟩ : Transform).scale ≤ 2) ∧
      ((0.15 : ℚ) ≤
          (applyZooms [.wheel 1, .plusBtn, .minusBtn, .wheel (-3)]
            ⟨50, 50, 0.45⟩).scale ∧
        (applyZooms [.wheel 1, .plusBtn, .minusBtn, .wheel (-3)]
            ⟨50, 50, 0.45⟩).scale ≤ 2) := by
  refine ⟨⟨by norm_num, by norm_num⟩,
    scale_clamping [.wheel 1, .plusBtn, .minusBtn, .wheel (-3)] ⟨50, 50, 0.45⟩
      (by norm_num) (by norm_num)⟩

/-! ## Application session state (main.jsx)

One record holding the `useState` fields of main.jsx that the embedded
core reads or writes.  `activeJourney` is the source's `activeScenario`
(the data it holds is called a journey throughout the repository). -/

structure AppState where
  nodes : List Node
  relationships : List Relationship
  positions : List (String × Pos)
  selectedModule : String
  searchTerm : String
  selectedNode : Option String
  hoveredNode : Option String
  showRelationships : Bool
  transform : Transform
  activeJourney : Option Journey
  animationStep : ℤ
  isAnimating : Bool
  editingPositionNode : Option String
  editingPositionOriginal : Option Pos
  nodeDragStart : Option DragStart
  toast : Option ToastMsg
  deriving DecidableEq

/-- The initial session state of main.jsx (`useState` initialisers,
lines 574–610), with empty graph data. -/
def initialState : AppState where
  nodes := []
  relationships := []
  positions := []
  selectedModule := "all"
  searchTerm := ""
  selectedNode := none
  hoveredNode := none
  showRelationships := true
  transform := ⟨50, 50, 0.45⟩
  activeJourney := none
  animationStep := -1
  isAnimating := false
  editingPositionNode := none
  editingPositionOriginal := none
  nodeDragStart := none
  toast := none

/-! ## Scenario player (main.jsx lines 831–898 and 1131) -/

/-- The journey-list button `onClick` (line 1131):
`setActiveScenario(scenario); setAnimationStep(-1); setIsAnimating(false)`. -/
def selectJourneyClick (j : Journey) (s : AppState) : AppState :=
  { s with activeJourney := some j, animationStep := -1, isAnimating := false }

/-- `startAnimation` (lines 831–841): activate the journey, step 0,
animating, clear the node selection, and recentre on the first path node
when it has a position (keeping the current scale). -/
def startAnimation (j : Journey) (s : AppState) : AppState :=
  let base := { s with activeJourney := some j, animationStep := 0,
                       isAnimating := true, selectedNode := none }
  match (jsIndex j.path 0).bind (lookupPos s.positions) with
  | some pos =>
      { base with transform := ⟨-pos.x * s.transform.scale + 500,
                                -pos.y * s.transform.scale + 350,
                                s.transform.scale⟩ }
  | none => base

/-- `stopAnimation` (lines 843–847). -/
def stopAnimation (s : AppState) : AppState :=
  { s with isAnimating := false, animationStep := -1 }

/-- `resetView` (lines 849–855). -/
def resetView (s : AppState) : AppState :=
  { s with activeJourney := none, animationStep := -1, isAnimating := false,
           transform := ⟨50, 50, 0.45⟩ }

/-- One firing of the 1500 ms `setInterval` callback (lines 857–874).  The
interval only exists while `isAnimating && activeScenario` (the effect's
guard), so outside that the state is unchanged.  At the last step it stops
the animation; otherwise it advances the step and, when the next path node
has a position, recentres the viewport keeping the current scale. -/
def animationTick (s : AppState) : AppState :=
  match s.isAnimating, s.activeJourney with
  | true, some j =>
      if s.animationStep ≥ (j.path.length : ℤ) - 1 then
        { s with isAnimating := false }
      else
        match (jsIndex j.path (s.animationStep + 1)).bind (lookupPos s.positions) with
        | some pos =>
            { s with animationStep := s.animationStep + 1,
                     transform := { s.transform with
                                      x := -pos.x * s.transform.scale + 500,
                                      y := -pos.y * s.transform.scale + 350 } }
        | none => { s with animationStep := s.animationStep + 1 }
  | _, _ => s

/-- `isNodeInPath` (line 876). -/
def isNodeInPath (s : AppState) (nodeId : String) : Bool :=
  match s.activeJourney with
  | some j => j.path.contains nodeId
  | none => false

/-- `isNodeCurrent` (line 877). -/
def isNodeCurrent (s : AppState) (nodeId : String) : Bool :=
  match s.activeJourney with
  | some j => decide (0 ≤ s.animationStep) &&
      (jsIndex j.path s.animationStep == some nodeId)
  | none => false

/-- `isNodeVisited` (lines 878–882). -/
def isNodeVisited (s : AppState) (nodeId : String) : Bool :=
  match s.activeJourney with
  | some j =>
      if s.animationStep < 0 then false
      else
        let idx := jsIndexOf j.path nodeId
        decide (0 ≤ idx) && decide (idx < s.animationStep)
  | none => false

/-- The adjacent-pair scan of `isEdgeInPath`'s `for` loop (lines 884–891). -/
def pathHasEdge : List String → String → String → Bool
  | a :: b :: rest, f, t =>
      ((a == f && b == t) || (a == t && b == f)) || pathHasEdge (b :: rest) f t
  | _, _, _ => false

/-- `isEdgeInPath` (lines 884–891). -/
def isEdgeInPath (s : AppState) (f t : String) : Bool :=
  match s.activeJourney with
  | some j => pathHasEdge j.path f t
  | none => false

/-- `isEdgeActive` (lines 893–898). -/
def isEdgeActive (s : AppState) (f t : String) : Bool :=
  match s.activeJourney with
  | some j =>
      if s.animationStep < 0 ∨ s.animationStep ≥ (j.path.length : ℤ) - 1 then
        false
      else
        match jsIndex j.path s.animationStep, jsIndex j.path (s.animationStep + 1) with
        | some cur, some nxt => (f == cur && t == nxt) || (t == cur && f == nxt)
        | _, _ => false
  | none => false

/-! ## Tick lemmas for the scenario player -/

theorem animationTick_advance (s : AppState) (j : Journey)
    (h1 : s.isAnimating = true) (h2 : s.activeJourney = some j)
    (h3 : s.animationStep < (j.path.length : ℤ) - 1) :
    (animationTick s).animationStep = s.animationStep + 1 ∧
    (animationTick s).isAnimating = true ∧
    (animationTick s).activeJourney = some j ∧
    (animationTick s).positions = s.positions ∧
    (animationTick s).transform.scale = s.transform.scale := by
  have hcond : ¬ s.animationStep ≥ (j.path.length : ℤ) - 1 := not_le.mpr h3
  cases hp : (jsIndex j.path (s.animationStep + 1)).bind (lookupPos s.positions) with
  | none => simp [animationTick, h1, h2, hcond, hp]
  | some pos => simp [animationTick, h1, h2, hcond, hp]

theorem animationTick_finish (s : AppState) (j : Journey)
    (h1 : s.isAnimating = true) (h2 : s.activeJourney = some j)
    (h3 : (j.path.length : ℤ) - 1 ≤ s.animationStep) :
    animationTick s = { s with isAnimating := false } := by
  simp [animationTick, h1, h2, ge_iff_le, h3]

theorem animationTick_idle (s : AppState) (h : s.isAnimating = false) :
    animationTick s = s := by
  cases hj : s.activeJourney <;> simp [animationTick, h, hj]

theorem startAnimation_fields (j : Journey) (s : AppState) :
    (startAnimation j s).animationStep = 0 ∧
    (startAnimation j s).isAnimating = true ∧
    (startAnimation j s).activeJourney = some j ∧
    (startAnimation j s).positions = s.positions ∧
    (startAnimation j s).selectedNode = none := by
  cases hp : (jsIndex j.path 0).bind (lookupPos s.positions) <;>
    simp [startAnimation, hp]

theorem ticks_progress (j : Journey) (s0 : AppState) (N : ℕ)
    (hlen : j.path.length = N) :
    ∀ k : ℕ, k < N →
      (animationTick^[k] (startAnimation j s0)).animationStep = (k : ℤ) ∧
      (animationTick^[k] (startAnimation j s0)).isAnimating = true ∧
      (animationTick^[k] (startAnimation j s0)).activeJourney = some j ∧
      (animationTick^[k] (startAnimation j s0)).positions = s0.positions := by
  intro k
  induction k with
  | zero =>
    intro _
    obtain ⟨ha, hb, hc, hd, _⟩ := startAnimation_fields j s0
    simpa using ⟨ha, hb, hc, hd⟩
  | succ k ih =>
    intro hk
    obtain ⟨ha, hb, hc, hd⟩ := ih (Nat.lt_of_succ_lt hk)
    have hstep : (animationTick^[k] (startAnimation j s0)).animationStep <
        (j.path.length : ℤ) - 1 := by
      rw [ha, hlen]; omega
    obtain ⟨g1, g2, g3, g4, _⟩ := animationTick_advance _ j hb hc hstep
    rw [Function.iterate_succ_apply']
    refine ⟨?_, g2, g3, ?_⟩
    · rw [g1, ha]; push_cast; ring
    · rw [g4, hd]

/-- C2 (amended, restricted to nonempty paths): starting the animation on a
journey whose path has length `N ≥ 1` from a not-started state
(stepIndex `-1`), the step is `k` and the player still running after `k`
ticks for every `k < N`, and after `N` or more ticks the step is pinned at
`N - 1` with the player stopped — the animation finishes in exactly `N`
ticks and later ticks change nothing. -/
theorem journey_termination (j : Journey) (s0 : AppState) (N : ℕ)
    (hN : 1 ≤ N) (hlen : j.path.length = N) (_h0 : s0.animationStep = -1) :
    (∀ k : ℕ, k < N →
        (animationTick^[k] (startAnimation j s0)).animationStep = (k : ℤ) ∧
        (animationTick^[k] (startAnimation j s0)).isAnimating = true) ∧
    (∀ m : ℕ, N ≤ m →
        (animationTick^[m] (startAnimation j s0)).animationStep = (N : ℤ) - 1 ∧
        (animationTick^[m] (startAnimation j s0)).isAnimating = false) := by
  constructor
  · intro k hk
    exact ⟨(ticks_progress j s0 N hlen k hk).1,
      (ticks_progress j s0 N hlen k hk).2.1⟩
  · intro m hm
    obtain ⟨ha, hb, hc, _⟩ := ticks_progress j s0 N hlen (N - 1) (by omega)
    have hstepN1 : (animationTick^[N - 1] (startAnimation j s0)).animationStep =
        (N : ℤ) - 1 := by rw [ha]; omega
    have hfinish : animationTick (animationTick^[N - 1] (startAnimation j s0)) =
        { (animationTick^[N - 1] (startAnimation j s0)) with isAnimating := false } :=
      animationTick_finish _ j hb hc (by rw [hstepN1, hlen])
    have hNfix : animationTick^[N] (startAnimation j s0) =
        { (animationTick^[N - 1] (startAnimation j s0)) with isAnimating := false } := by
      have hsplit : N = (N - 1) + 1 := by omega
      calc animationTick^[N] (startAnimation j s0)
          = animationTick^[(N - 1) + 1] (startAnimation j s0) := by rw [← hsplit]
        _ = animationTick (animationTick^[N - 1] (startAnimation j s0)) :=
            Function.iterate_succ_apply' _ _ _
        _ = _ := hfinish
    have hfixed : animationTick
        { (animationTick^[N - 1] (startAnimation j s0)) with isAnimating := false } =
        { (animationTick^[N - 1] (startAnimation j s0)) with isAnimating := false } :=
      animationTick_idle _ rfl
    have hm' : animationTick^[m] (startAnimation j s0) =
        { (animationTick^[N - 1] (startAnimation j s0)) with isAnimating := false } := by
      have hsplit : m = (m - N) + N := by omega
      rw [hsplit, Function.iterate_add_apply, hNfix, Function.iterate_fixed hfixed]
    rw [hm']
    exact ⟨hstepN1, rfl⟩

/-- A two-node demo journey used to instantiate the termination theorem. -/
def c2j : Journey :=
  ⟨"demo2", "Demo 2", "#10b981", "Planning", ["A", "B"], [], []⟩

/-- A journey with an empty path. -/
def c2empty : Journey :=
  ⟨"empty", "Empty", "#10b981", "Planning", [], [], []⟩

/-- C2 counterexample: for `N = 0` (empty path) the claim fails — after
starting and letting `N = 0` ticks run, the player is still animating (it
takes one more tick to stop) and the step is `0`, not `N - 1 = -1`. -/
theorem journey_termination_cex :
    (startAnimation c2empty initialState).isAnimating = true ∧
    (startAnimation c2empty initialState).animationStep ≠ -1 := by
  constructor
  · rfl
  · decide

/-- C2 witness: the termination theorem at a concrete two-node journey,
evaluated after 5 ticks. -/
theorem journey_termination_witness :
    (1 ≤ 2 ∧ c2j.path.length = 2 ∧ initialState.animationStep = -1) ∧
    ((animationTick^[5] (startAnimation c2j initialState)).animationStep =
        (2 : ℤ) - 1 ∧
      (animationTick^[5] (startAnimation c2j initialState)).isAnimating = false) :=
  ⟨⟨by norm_num, rfl, rfl⟩,
    (journey_termination c2j initialState 2 (by norm_num) rfl rfl).2 5 (by norm_num)⟩

/-! ## C6: the concrete [A, B, C] journey trace -/

/-- The concrete journey of the spec's trace: path `[A, B, C]`, dataFlow
`[{step:1, A→B}, {step:2, B→C}]`. -/
def c6j : Journey :=
  ⟨"abc", "ABC", "#10b981", "Demo", ["A", "B", "C"],
    [⟨1, "A", "B", "step 1"⟩, ⟨2, "B", "C", "step 2"⟩], []⟩

/-- C6 counterexample: after starting the animation on the `[A, B, C]`
journey and letting exactly 2 ticks run, `stepIndex` is `2`, not `1` as the
claim states. -/
theorem concrete_trace_cex :
    (animationTick^[2] (startAnimation c6j initialState)).animationStep ≠ 1 := by
  decide

/-- C6 (amended): on the `[A, B, C]` journey, after 1 tick the step is 1
with the B→C edge active; after 2 ticks the step is 2 (not 1), node C is
current, A is visited, no edge is active any more, and the player is still
animating; the 3rd tick stops the animation with the step staying 2. -/
theorem concrete_trace :
    (isEdgeActive (animationTick^[1] (startAnimation c6j initialState)) "B" "C"
        = true) ∧
    (animationTick^[2] (startAnimation c6j initialState)).animationStep = 2 ∧
    (isNodeCurrent (animationTick^[2] (startAnimation c6j initialState)) "C"
        = true) ∧
    (isEdgeActive (animationTick^[2] (startAnimation c6j initialState)) "B" "C"
        = false) ∧
    (isNodeVisited (animationTick^[2] (startAnimation c6j initialState)) "A"
        = true) ∧
    (animationTick^[2] (startAnimation c6j initialState)).isAnimating = true ∧
    (animationTick^[3] (startAnimation c6j initialState)).animationStep = 2 ∧
    (animationTick^[3] (startAnimation c6j initialState)).isAnimating = false := by
  decide

/-! ## C7: selecting a journey -/

/-- C7 counterexample: selecting a journey while a node is selected leaves
`selectedNode` untouched (it is cleared only when the animation starts, or
the canvas / delete actions clear it) — contradicting "clears the current
node selection". -/
theorem select_journey_cex :
    (selectJourneyClick c6j
        { initialState with selectedNode := some "X", animationStep := 4,
                            isAnimating := true }).selectedNode ≠ none := by
  decide

/-- C7 (amended): selecting a journey, from any state, sets it active,
resets `stepIndex` to `-1` and `running` to `false`, but leaves the node
selection unchanged; the selection is cleared later, when the animation is
started. -/
theorem select_journey_resets (j : Journey) (s : AppState) :
    (selectJourneyClick j s).activeJourney = some j ∧
    (selectJourneyClick j s).animationStep = -1 ∧
    (selectJourneyClick j s).isAnimating = false ∧
    (selectJourneyClick j s).selectedNode = s.selectedNode ∧
    (startAnimation j s).selectedNode = none :=
  ⟨rfl, rfl, rfl, rfl, (startAnimation_fields j s).2.2.2.2⟩

/-! ## C8: frame effect of a tick -/

/-- C8: every animation tick leaves the scale unchanged, and when the next
path node has no recorded position the whole transform is unchanged while
the step still advances by one (and the model stays total — no error). -/
theorem tick_frame_effect (s : AppState) (j : Journey) :
    ((animationTick s).transform.scale = s.transform.scale) ∧
    (s.isAnimating = true → s.activeJourney = some j →
      s.animationStep < (j.path.length : ℤ) - 1 →
      (jsIndex j.path (s.animationStep + 1)).bind (lookupPos s.positions) = none →
      (animationTick s).transform = s.transform ∧
      (animationTick s).animationStep = s.animationStep + 1) := by
  constructor
  · cases h1 : s.isAnimating with
    | false => rw [animationTick_idle s h1]
    | true =>
      cases h2 : s.activeJourney with
      | none => simp [animationTick, h1, h2]
      | some j' =>
        by_cases h3 : s.animationStep ≥ (j'.path.length : ℤ) - 1
        · simp [animationTick, h1, h2, ge_iff_le, h3]
        · cases hp : (jsIndex j'.path (s.animationStep + 1)).bind
              (lookupPos s.positions) with
          | none => simp [animationTick, h1, h2, ge_iff_le, h3, hp]
          | some pos => simp [animationTick, h1, h2, ge_iff_le, h3, hp]
  · intro h1 h2 h3 hp
    have hcond : ¬ s.animationStep ≥ (j.path.length : ℤ) - 1 := not_le.mpr h3
    simp [animationTick, h1, h2, ge_iff_le, hcond, hp]

/-- Journey and state used to instantiate the frame-effect theorem at a
missing position: two-node path, empty positions map. -/
def c8s : AppState :=
  { initialState with isAnimating := true, activeJourney := some c2j,
                      animationStep := 0 }

/-- C8 witness: the frame-effect theorem at a concrete state whose next
path node has no position. -/
theorem tick_frame_effect_witness :
    ((jsIndex c2j.path (c8s.animationStep + 1)).bind (lookupPos c8s.positions)
        = none) ∧
    ((animationTick c8s).transform = c8s.transform ∧
      (animationTick c8s).animationStep = c8s.animationStep + 1) :=
  ⟨rfl, (tick_frame_effect c8s c2j).2 rfl rfl (by decide) rfl⟩

/-! ## Position editing / drag controller (main.jsx lines 732–801) -/

/-- `startEditPosition` (lines 733–740): capture the original position when
one is recorded, enter edit mode on the node, clear any drag. -/
def startEditPosition (nodeId : String) (s : AppState) : AppState :=
  let s1 := match lookupPos s.positions nodeId with
    | some pos => { s with editingPositionOriginal := some pos }
    | none => s
  { s1 with editingPositionNode := some nodeId, nodeDragStart := none }

/-- `cancelEditPosition` (lines 742–749): restore the original position
locally and leave the edit session. -/
def cancelEditPosition (s : AppState) : AppState :=
  let s1 := match s.editingPositionNode, s.editingPositionOriginal with
    | some n, some orig => { s with positions := setPos s.positions n orig }
    | _, _ => s
  { s1 with editingPositionNode := none, editingPositionOriginal := none,
            nodeDragStart := none }

/-- `saveEditPosition` (lines 751–771).  The result of the `PUT` network
call is the `saveOk` parameter (the core is fire-and-forget about the wire);
`errMsg` is the error's message on failure.  On failure it surfaces an
error toast and reverts to the original position; either way the edit
session ends. -/
def saveEditPosition (saveOk : Bool) (errMsg : String) (s : AppState) : AppState :=
  match s.editingPositionNode with
  | none => s
  | some n =>
    match lookupPos s.positions n with
    | none => s
    | some _ =>
      let s1 :=
        if saveOk then
          { s with toast := some ⟨"Position for \"" ++ n ++ "\" saved", "success"⟩ }
        else
          let s' := { s with
            toast := some ⟨"Failed to save position: " ++ errMsg, "error"⟩ }
          match s.editingPositionOriginal with
          | some orig => { s' with positions := setPos s.positions n orig }
          | none => s'
      { s1 with editingPositionNode := none, editingPositionOriginal := none,
                nodeDragStart := none }

/-- `handleNodeDragStart` (lines 773–783).  Ignored unless the node is the
one being repositioned; `none` models the JS `TypeError` that reading
`pos.x` of an absent position would raise. -/
def handleNodeDragStart (clientX clientY : ℚ) (nodeId : String)
    (s : AppState) : Option AppState :=
  if s.editingPositionNode ≠ some nodeId then some s
  else
    match lookupPos s.positions nodeId with
    | some pos =>
        some { s with nodeDragStart := some ⟨clientX, clientY, pos.x, pos.y⟩ }
    | none => none

/-- `handleNodeDragMove` (lines 785–797): move the edited node by the
screen delta divided by the scale (screen → world). -/
def handleNodeDragMove (clientX clientY : ℚ) (s : AppState) : AppState :=
  match s.nodeDragStart, s.editingPositionNode with
  | some ds, some n =>
      let dx := (clientX - ds.mouseX) / s.transform.scale
      let dy := (clientY - ds.mouseY) / s.transform.scale
      { s with positions := setPos s.positions n ⟨ds.nodeX + dx, ds.nodeY + dy⟩ }
  | _, _ => s

/-- `handleNodeDragEnd` (lines 799–801). -/
def handleNodeDragEnd (s : AppState) : AppState :=
  { s with nodeDragStart := none }

/-- C3: enter position edit on a node with recorded position `p0`, start a
drag, move by any screen delta at any scale, release; then cancelling
restores exactly `p0` and ends the session, and committing with a failing
save also restores exactly `p0`, surfaces an error toast, and ends the
session. -/
theorem drag_roundtrip (s : AppState) (id : String) (p0 : Pos)
    (mx my mx' my' : ℚ) (errMsg : String) (s2 : AppState)
    (hpos : lookupPos s.positions id = some p0)
    (hstart : handleNodeDragStart mx my id (startEditPosition id s) = some s2) :
    (lookupPos (cancelEditPosition
        (handleNodeDragEnd (handleNodeDragMove mx' my' s2))).positions id
        = some p0 ∧
      (cancelEditPosition
        (handleNodeDragEnd (handleNodeDragMove mx' my' s2))).editingPositionNode
        = none) ∧
    (lookupPos (saveEditPosition false errMsg
        (handleNodeDragEnd (handleNodeDragMove mx' my' s2))).positions id
        = some p0 ∧
      (saveEditPosition false errMsg
        (handleNodeDragEnd (handleNodeDragMove mx' my' s2))).editingPositionNode
        = none ∧
      (saveEditPosition false errMsg
        (handleNodeDragEnd (handleNodeDragMove mx' my' s2))).toast
        = some ⟨"Failed to save position: " ++ errMsg, "error"⟩) := by
  have h1 : startEditPosition id s =
      { s with editingPositionOriginal := some p0,
               editingPositionNode := some id, nodeDragStart := none } := by
    simp [startEditPosition, hpos]
  rw [h1] at hstart
  simp only [handleNodeDragStart] at hstart
  rw [if_neg (by simp)] at hstart
  simp only [hpos, Option.some.injEq] at hstart
  subst hstart
  simp [handleNodeDragMove, handleNodeDragEnd, cancelEditPosition,
    saveEditPosition, lookupPos_setPos_self]

/-- Concrete state for the drag round-trip witness: one node at (1, 2). -/
def c3s : AppState :=
  { initialState with positions := [("n1", ⟨1, 2⟩)] }

/-- The state after `startEditPosition "n1"` and `handleNodeDragStart`. -/
def c3s2 : AppState :=
  { initialState with positions := [("n1", ⟨1, 2⟩)],
                      editingPositionOriginal := some ⟨1, 2⟩,
                      editingPositionNode := some "n1",
                      nodeDragStart := some ⟨0, 0, 1, 2⟩ }

/-- C3 witness: the drag round-trip theorem at a concrete node, drag and
failing save. -/
theorem drag_roundtrip_witness :
    (lookupPos c3s.positions "n1" = some ⟨1, 2⟩ ∧
      handleNodeDragStart 0 0 "n1" (startEditPosition "n1" c3s) = some c3s2) ∧
    ((lookupPos (cancelEditPosition
          (handleNodeDragEnd (handleNodeDragMove 7 9 c3s2))).positions "n1"
          = some ⟨1, 2⟩ ∧
        (cancelEditPosition
          (handleNodeDragEnd (handleNodeDragMove 7 9 c3s2))).editingPositionNode
          = none) ∧
      (lookupPos (saveEditPosition false "boom"
          (handleNodeDragEnd (handleNodeDragMove 7 9 c3s2))).positions "n1"
          = some ⟨1, 2⟩ ∧
        (saveEditPosition false "boom"
          (handleNodeDragEnd (handleNodeDragMove 7 9 c3s2))).editingPositionNode
          = none ∧
        (saveEditPosition false "boom"
          (handleNodeDragEnd (handleNodeDragMove 7 9 c3s2))).toast
          = some ⟨"Failed to save position: " ++ "boom", "error"⟩)) :=
  ⟨⟨rfl, rfl⟩, drag_roundtrip c3s "n1" ⟨1, 2⟩ 0 0 7 9 "boom" c3s2 rfl rfl⟩

/-! ## Filter engine (main.jsx lines 814–828; the template has the same
logic at lines 691–705) -/

/-- The predicate of `filteredNodes`' filter (lines 815–821). -/
def nodeMatches (selectedModule searchTerm : String) (node : Node) : Bool :=
  (selectedModule == "all" || node.module == selectedModule) &&
  (searchTerm == "" ||
    strIncludes node.id.toLower searchTerm.toLower ||
    (match node.definition with
     | some d => strIncludes d.toLower searchTerm.toLower
     | none => false))

/-- `filteredNodes` (lines 814–822): module filter ∩ search filter over the
node map's values. -/
def filteredNodes (nodes : List Node) (selectedModule searchTerm : String) :
    List Node :=
  nodes.filter (nodeMatches selectedModule searchTerm)

/-- `filteredRelationships` (lines 824–828): empty when relationships are
hidden, otherwise the edges whose two endpoints are ids of visible nodes. -/
def filteredRelationships (showRelationships : Bool)
    (relationships : List Relationship) (visibleNodes : List Node) :
    List Relationship :=
  if !showRelationships then []
  else
    let nodeIds := visibleNodes.map (·.id)
    relationships.filter (fun rel =>
      nodeIds.contains rel.fromId && nodeIds.contains rel.toId)

/-- C4: every visible edge has both endpoints among the visible nodes, and
hiding relationships always yields an empty visible edge set. -/
theorem filter_composition (nodes : List Node) (rels : List Relationship)
    (m term : String) (rel : Relationship)
    (h : rel ∈ filteredRelationships true rels (filteredNodes nodes m term)) :
    ((∃ n ∈ filteredNodes nodes m term, n.id = rel.fromId) ∧
      (∃ n ∈ filteredNodes nodes m term, n.id = rel.toId)) ∧
    filteredRelationships false rels (filteredNodes nodes m term) = [] := by
  refine ⟨?_, rfl⟩
  simp only [filteredRelationships, Bool.not_true, Bool.false_eq_true,
    if_false, List.mem_filter, Bool.and_eq_true, List.contains_eq_any_beq,
    List.any_eq_true, beq_iff_eq] at h
  obtain ⟨-, ⟨⟨a, ha, hae⟩, ⟨b, hb, hbe⟩⟩⟩ := h
  simp only [List.mem_map] at ha hb
  obtain ⟨na, hna, hnae⟩ := ha
  obtain ⟨nb, hnb, hnbe⟩ := hb
  exact ⟨⟨na, hna, by rw [hnae, ← hae]⟩, ⟨nb, hnb, by rw [hnbe, ← hbe]⟩⟩

/-- Sample data for the filter witness. -/
def c4nodes : List Node :=
  [⟨"A", "core", "m1", "#fff", none⟩, ⟨"B", "kpi", "m1", "#fff", some "beta"⟩]

/-- Sample edge for the filter witness. -/
def c4rel : Relationship := ⟨"r1", "A", "B", "uses", "1-to-1"⟩

/-- C4 witness: the composition theorem at a concrete graph with the
module filter `all` and an empty search term. -/
theorem filter_composition_witness :
    c4rel ∈ filteredRelationships true [c4rel] (filteredNodes c4nodes "all" "") ∧
    (((∃ n ∈ filteredNodes c4nodes "all" "", n.id = c4rel.fromId) ∧
        (∃ n ∈ filteredNodes c4nodes "all" "", n.id = c4rel.toId)) ∧
      filteredRelationships false [c4rel] (filteredNodes c4nodes "all" "") = []) :=
  ⟨by decide, filter_composition c4nodes [c4rel] "all" "" c4rel (by decide)⟩

/-! ## Edge geometry (main.jsx lines 1486–1502; template lines 1255–1295)

`JsQ` is a JS numeric value that may fail to be a finite number.  `jdiv`
returns `none` on a zero divisor; every division reached by the theorems
below is `0/0`, which is NaN in JS. -/

abbrev JsQ := Option ℚ

def jadd : JsQ → JsQ → JsQ
  | some a, some b => some (a + b)
  | _, _ => none

def jsub : JsQ → JsQ → JsQ
  | some a, some b => some (a - b)
  | _, _ => none

def jmul : JsQ → JsQ → JsQ
  | some a, some b => some (a * b)
  | _, _ => none

def jdiv : JsQ → JsQ → JsQ
  | some a, some b => if b = 0 then none else some (a / b)
  | _, _ => none

/-- JS `Math.sqrt` (NaN on negatives, modelled by `Rat.sqrt` elsewhere). -/
def jsqrt : JsQ → JsQ
  | some a => if a < 0 then none else some (Rat.sqrt a)
  | none => none

/-- JS `Math.abs` (NaN-propagating). -/
def jabs : JsQ → JsQ
  | some a => some |a|
  | none => none

/-- JS `v || 1` on a number: NaN and `0` are falsy and give `1`. -/
def jor1 : JsQ → JsQ
  | none => some 1
  | some a => if a = 0 then some 1 else some a

theorem ratSqrt_zero : Rat.sqrt 0 = 0 := by
  simp

/-- main.jsx per-node arrow trim offset
(`fromNode?.nodeType === 'decision' ? 38 : ... 'kpi' ? 30 : 35`). -/
def nodeOffsetMain (n : Option Node) : ℚ :=
  match n with
  | some nd => if nd.nodeType = "decision" then 38
               else if nd.nodeType = "kpi" then 30 else 35
  | none => 35

/-- The trimmed endpoints of a main.jsx edge (lines 1491–1502).  The
length divisor is `Math.sqrt(dx*dx + dy*dy) || 1`. -/
structure EdgeGeomMain where
  startX : JsQ
  startY : JsQ
  endX : JsQ
  endY : JsQ
  deriving DecidableEq

def edgeGeomMain (fromPos toPos : Pos) (fromNode toNode : Option Node) :
    EdgeGeomMain :=
  let dx := toPos.x - fromPos.x
  let dy := toPos.y - fromPos.y
  let len := jor1 (jsqrt (some (dx * dx + dy * dy)))
  let fromOffset := nodeOffsetMain fromNode
  let toOffset := nodeOffsetMain toNode
  { startX := jadd (some fromPos.x) (jmul (jdiv (some dx) len) (some fromOffset))
    startY := jadd (some fromPos.y) (jmul (jdiv (some dy) len) (some fromOffset))
    endX := jsub (some toPos.x) (jmul (jdiv (some dx) len) (some toOffset))
    endY := jsub (some toPos.y) (jmul (jdiv (some dy) len) (some toOffset)) }

/-- The template's edge geometry (kg_frontend_template.jsx lines
1260–1295): normal vector, Bezier control point (offset by the
parallel-edge bundling rank) and shape-trimmed endpoints.  All divisors
are the unguarded `Math.sqrt(dx*dx + dy*dy)`. -/
structure EdgeGeomTmpl where
  nx : JsQ
  ny : JsQ
  ctrlX : JsQ
  ctrlY : JsQ
  startX : JsQ
  startY : JsQ
  endX : JsQ
  endY : JsQ
  deriving DecidableEq

def edgeGeomTmpl (fromPos toPos : Pos) (fromNode toNode : Option Node)
    (offset : ℚ) : EdgeGeomTmpl :=
  let dx := toPos.x - fromPos.x
  let dy := toPos.y - fromPos.y
  let len := jsqrt (some (dx * dx + dy * dy))
  let nx := jdiv (some (-dy)) len
  let ny := jdiv (some dx) len
  let ctrlX := jadd (some ((fromPos.x + toPos.x) / 2)) (jmul nx (some offset))
  let ctrlY := jadd (some ((fromPos.y + toPos.y) / 2)) (jmul ny (some offset))
  let fromDist := jsqrt (some (dx * dx + dy * dy))
  let fromNx := jdiv (some dx) fromDist
  let fromNy := jdiv (some dy) fromDist
  let fromOffset : JsQ :=
    match fromNode with
    | some nd =>
        if nd.nodeType = "kpi" then jdiv (some 24) (jadd (jabs fromNx) (jabs fromNy))
        else some 28
    | none => some 28
  let toDx := fromPos.x - toPos.x
  let toDy := fromPos.y - toPos.y
  let toDist := jsqrt (some (toDx * toDx + toDy * toDy))
  let toNx := jdiv (some toDx) toDist
  let toNy := jdiv (some toDy) toDist
  let toOffset : JsQ :=
    match toNode with
    | some nd =>
        if nd.nodeType = "kpi" then jdiv (some 24) (jadd (jabs toNx) (jabs toNy))
        else some 28
    | none => some 28
  { nx := nx
    ny := ny
    ctrlX := ctrlX
    ctrlY := ctrlY
    startX := jadd (some fromPos.x) (jmul fromNx fromOffset)
    startY := jadd (some fromPos.y) (jmul fromNy fromOffset)
    endX := jadd (some toPos.x) (jmul toNx toOffset)
    endY := jadd (some toPos.y) (jmul toNy toOffset) }

/-- C9 counterexample: in the template's geometry two coincident endpoint
positions make the unit direction, the control point and the trimmed
endpoints all NaN (`none`): the division guard the claim describes is
absent there. -/
theorem coincident_tmpl_nan :
    (edgeGeomTmpl ⟨10, 20⟩ ⟨10, 20⟩ none none 0).nx = none ∧
    (edgeGeomTmpl ⟨10, 20⟩ ⟨10, 20⟩ none none 0).ctrlX = none ∧
    (edgeGeomTmpl ⟨10, 20⟩ ⟨10, 20⟩ none none 0).startX = none ∧
    (edgeGeomTmpl ⟨10, 20⟩ ⟨10, 20⟩ none none 0).endY = none := by
  have h0 : Rat.sqrt 0 = 0 := ratSqrt_zero
  refine ⟨?_, ?_, ?_, ?_⟩ <;>
    norm_num [edgeGeomTmpl, jsqrt, jdiv, jadd, jmul, h0]

/-- C9 (amended): in main.jsx's edge geometry the zero length falls back
to `1` (`|| 1`), so for coincident endpoints every computed endpoint
component is a finite number (no NaN) — in fact exactly the node centre. -/
theorem coincident_main_no_nan (fromPos toPos : Pos)
    (fromNode toNode : Option Node) (h : fromPos = toPos) :
    (edgeGeomMain fromPos toPos fromNode toNode).startX = some fromPos.x ∧
    (edgeGeomMain fromPos toPos fromNode toNode).startY = some fromPos.y ∧
    (edgeGeomMain fromPos toPos fromNode toNode).endX = some toPos.x ∧
    (edgeGeomMain fromPos toPos fromNode toNode).endY = some toPos.y := by
  subst h
  have h0 : Rat.sqrt 0 = 0 := ratSqrt_zero
  refine ⟨?_, ?_, ?_, ?_⟩ <;>
    norm_num [edgeGeomMain, jor1, jsqrt, jdiv, jadd, jsub, jmul, h0]

/-- C9 witness: the no-NaN theorem at concrete coincident positions. -/
theorem coincident_main_no_nan_witness :
    (⟨5, 6⟩ : Pos) = ⟨5, 6⟩ ∧
      (edgeGeomMain ⟨5, 6⟩ ⟨5, 6⟩ none none).startX = some (5 : ℚ) :=
  ⟨rfl, (coincident_main_no_nan ⟨5, 6⟩ ⟨5, 6⟩ none none rfl).1⟩

/-! ## C10: rendering guards for missing positions (main.jsx lines
1486–1489 and 1528–1530) -/

/-- The body of `filteredRelationships.map` up to its geometry: `null`
(`none`) as soon as either endpoint has no recorded position
(`if (!fromPos || !toPos) return null`). -/
def renderEdge (nodes : List Node) (positions : List (String × Pos))
    (rel : Relationship) : Option EdgeGeomMain :=
  match lookupPos positions rel.fromId, lookupPos positions rel.toId with
  | some fromPos, some toPos =>
      some (edgeGeomMain fromPos toPos
        (lookupNode nodes rel.fromId) (lookupNode nodes rel.toId))
  | _, _ => none

/-- The body of `filteredNodes.map` up to its guard: `null` (`none`) when
the node has no recorded position (`if (!pos) return null`). -/
def renderNode (positions : List (String × Pos)) (node : Node) :
    Option (Node × Pos) :=
  match lookupPos positions node.id with
  | some pos => some (node, pos)
  | none => none

/-- C10: an edge one of whose endpoints has no position entry renders to
nothing (and, the model being total, no error is raised), and likewise a
node with no position entry; this holds for every edge and node, in
particular the visible ones. -/
theorem missing_position_skipped (nodes : List Node)
    (positions : List (String × Pos)) (rel : Relationship) (node : Node) :
    ((lookupPos positions rel.fromId = none ∨
        lookupPos positions rel.toId = none) →
      renderEdge nodes positions rel = none) ∧
    (lookupPos positions node.id = none → renderNode positions node = none) := by
  constructor
  · intro h
    cases hf : lookupPos positions rel.fromId with
    | none => simp [renderEdge, hf]
    | some fp =>
      cases ht : lookupPos positions rel.toId with
      | none => simp [renderEdge, hf, ht]
      | some tp =>
        rcases h with h | h
        · rw [hf] at h; exact absurd h (by simp)
        · rw [ht] at h; exact absurd h (by simp)
  · intro h
    simp [renderNode, h]

/-- C10 witness: the skipping theorem at a concrete edge and node with an
empty positions map. -/
theorem missing_position_skipped_witness :
    (lookupPos [] c4rel.fromId = none ∨ lookupPos [] c4rel.toId = none) ∧
    renderEdge c4nodes [] c4rel = none ∧
    renderNode [] ⟨"A", "core", "m1", "#fff", none⟩ = none :=
  ⟨Or.inl rfl,
    (missing_position_skipped c4nodes [] c4rel
        ⟨"A", "core", "m1", "#fff", none⟩).1 (Or.inl rfl),
    (missing_position_skipped c4nodes [] c4rel
        ⟨"A", "core", "m1", "#fff", none⟩).2 rfl⟩

/-- C7 witness: the select-journey theorem at a concrete journey and the
initial state. -/
theorem select_journey_resets_witness :
    (selectJourneyClick c2j initialState).activeJourney = some c2j ∧
    (selectJourneyClick c2j initialState).animationStep = -1 ∧
    (selectJourneyClick c2j initialState).isAnimating = false ∧
    (selectJourneyClick c2j initialState).selectedNode =
      initialState.selectedNode ∧
    (startAnimation c2j initialState).selectedNode = none :=
  select_journey_resets c2j initialState
